import Mathlib

/-!
Verification of the `createPausable` controller from `src/pausable.ts`
(`@bemedev/rx-add-ons`).

The controller builds the pipeline
`control$.pipe(startWith('stop'), scan(reducer, 'stopped'), switchMap(gate))`
and subscribes it once to the caller-supplied observer.  We embed:

* the lifecycle reducer passed to `scan` (`scanReducer`);
* the spec's §4.1 transition table (`specTransition`), to compare;
* an operational model of the composed pipeline for a hot (externally
  driven) producer (`runH`), for a cold synchronous producer given as a
  per-subscription script (`runC`), and for a cold timed `interval(100)`
  producer (`runT`), each following the rxjs semantics of `Subject`,
  `startWith`, `scan`, `switchMap` and `EMPTY` as exercised by the code.
-/

namespace RxAddOns

/-- The lifecycle states of the controller: `'stopped' | 'running' | 'paused'`. -/
inductive LifecycleState where
  | stopped
  | running
  | paused
deriving DecidableEq, Repr

/-- The four commands accepted by the control subject:
`'start' | 'stop' | 'pause' | 'resume'`. -/
inductive Cmd where
  | start
  | stop
  | pause
  | resume
deriving DecidableEq, Repr

open LifecycleState Cmd

/-- The reducer passed to `scan` in `createPausable` (src/pausable.ts:20-26):
```
if (action === 'start' && state !== 'running') return 'running';
if (action === 'stop') return 'stopped';
if (action === 'pause' && state === 'running') return 'paused';
if (action === 'resume' && state === 'paused') return 'running';
return state; // Ignore invalid transitions
```
-/
def scanReducer (state : LifecycleState) (action : Cmd) : LifecycleState :=
  if action = Cmd.start ∧ state ≠ running then running
  else if action = Cmd.stop then stopped
  else if action = Cmd.pause ∧ state = running then paused
  else if action = Cmd.resume ∧ state = paused then running
  else state

/-- The transition table of §4.1 of the spec, written from the spec's words:
row = current state, column = command.
stopped: start→running, stop→stopped, pause→stopped, resume→stopped;
running: start→running, stop→stopped, pause→paused, resume→running;
paused : start→running, stop→stopped, pause→paused, resume→running. -/
def specTransition : LifecycleState → Cmd → LifecycleState
  | stopped, .start => running
  | stopped, .stop => stopped
  | stopped, .pause => stopped
  | stopped, .resume => stopped
  | running, .start => running
  | running, .stop => stopped
  | running, .pause => paused
  | running, .resume => running
  | paused, .start => running
  | paused, .stop => stopped
  | paused, .pause => paused
  | paused, .resume => running

theorem scanReducer_eq_specTransition (s : LifecycleState) (c : Cmd) :
    scanReducer s c = specTransition s c := by
  cases s <;> cases c <;> rfl

theorem foldl_scanReducer_eq_spec (s : LifecycleState) (cmds : List Cmd) :
    cmds.foldl scanReducer s = cmds.foldl specTransition s := by
  induction cmds generalizing s with
  | nil => rfl
  | cons c cs ih => simp [List.foldl, scanReducer_eq_specTransition, ih]

/-- C1: for every command sequence, the state after processing equals the
left-fold of the §4.1 transition table starting from `stopped`; `start`
always yields `running` and `stop` always yields `stopped` from any state;
the reducer is a total function, hence deterministic. -/
theorem C1_reducer_matches_spec_table :
    (∀ cmds : List Cmd,
        cmds.foldl scanReducer LifecycleState.stopped
          = cmds.foldl specTransition LifecycleState.stopped)
      ∧ (∀ s, scanReducer s Cmd.start = LifecycleState.running)
      ∧ (∀ s, scanReducer s Cmd.stop = LifecycleState.stopped) := by
  refine ⟨fun cmds => foldl_scanReducer_eq_spec _ cmds, ?_, ?_⟩
  · intro s; cases s <;> rfl
  · intro s; cases s <;> rfl

/-- Notifications delivered to the caller-supplied observer (the sink). -/
inductive SEvent (α : Type) where
  | next (a : α)
  | error
  | complete
deriving DecidableEq, Repr

/-- The terminal notification retained by a stopped rxjs `Subject`:
a stopped subject replays this notification to every later subscriber. -/
inductive Terminal where
  | err
  | com
deriving DecidableEq, Repr

/-- Events driving the hot-producer model: a caller command sent on the
control subject (`controller.start()` etc., i.e. `control$.next(...)`),
or the hot wrapped producer emitting a value, an error, or a completion. -/
inductive HEv (α : Type) where
  | cmd (c : Cmd)
  | pnext (a : α)
  | perror
  | pcomplete
deriving DecidableEq, Repr

/-- Observable state of the composed pipeline of `createPausable` wrapped
around a hot producer:
`state` is the last lifecycle state emitted by `scan`; `live` whether an
inner subscription of `switchMap` to `source$` is currently open; `dead`
whether an error reached the downstream observer (which unsubscribes the
whole chain from `control$`); `subCnt` counts `subscribe` calls made on
`source$`; `downSubs` counts `subscribe` calls made on the composed
pipeline (`controlled$.subscribe(observer)`); `terminal` is the hot
producer's retained terminal notification once it stopped; `sink` is the
list of notifications delivered to the observer. -/
structure HState (α : Type) where
  state : LifecycleState
  live : Bool
  dead : Bool
  subCnt : Nat
  downSubs : Nat
  terminal : Option Terminal
  sink : List (SEvent α)
deriving DecidableEq, Repr

/-- State right after `createPausable` returns: `controlled$.subscribe` ran
once; `startWith('stop')` pushed `'stop'` into `scan` seeded with
`'stopped'`, so the first emitted state is `scanReducer stopped stop`;
`switchMap` saw a non-`running` state and subscribed `EMPTY`, which
completes silently, so no inner subscription to `source$` is open. -/
def initH (α : Type) : HState α :=
  { state := scanReducer LifecycleState.stopped Cmd.stop
    live := false
    dead := false
    subCnt := 0
    downSubs := 1
    terminal := none
    sink := [] }

/-- One event of the hot model, following the rxjs semantics of the pipeline
in src/pausable.ts:18-34.

* `cmd c`: if the chain was torn down by a downstream error, `control$`
  has no subscribers and `next` is a no-op.  Otherwise `scan` emits
  `scanReducer state c`; `switchMap` disposes the current inner
  subscription and subscribes the new inner: `source$` when the state is
  `running` (a stopped hot subject immediately replays its terminal
  notification: an error propagates downstream and kills the chain, a
  completion is absorbed because the outer `control$` never completes),
  `EMPTY` otherwise (completes at once, nothing reaches the observer).
* `pnext a`: a value of the hot producer reaches the observer iff the
  producer is not stopped and an inner subscription is open.
* `perror` / `pcomplete`: stop the hot producer; if an inner subscription
  is open, `switchMap` forwards the error downstream (killing the chain)
  but absorbs the completion (the outer has not completed). -/
def stepH {α : Type} (g : HState α) : HEv α → HState α
  | .cmd c =>
    if g.dead = true then g
    else
      let s := scanReducer g.state c
      if s = LifecycleState.running then
        match g.terminal with
        | none => { g with state := s, live := true, subCnt := g.subCnt + 1 }
        | some .com => { g with state := s, live := false, subCnt := g.subCnt + 1 }
        | some .err =>
            { g with state := s, live := false, subCnt := g.subCnt + 1,
                     dead := true, sink := g.sink ++ [SEvent.error] }
      else { g with state := s, live := false }
  | .pnext a =>
    if g.terminal = none ∧ g.live = true then { g with sink := g.sink ++ [SEvent.next a] }
    else g
  | .perror =>
    if g.terminal = none then
      if g.live = true then
        { g with terminal := some .err, live := false, dead := true,
                 sink := g.sink ++ [SEvent.error] }
      else { g with terminal := some .err }
    else g
  | .pcomplete =>
    if g.terminal = none then
      if g.live = true then { g with terminal := some .com, live := false }
      else { g with terminal := some .com }
    else g

/-- Run the hot model from construction over a sequence of events. -/
def runH {α : Type} (tr : List (HEv α)) : HState α :=
  tr.foldl stepH (initH α)

/-- The commands contained in an event trace, in order. -/
def cmdsOf {α : Type} : List (HEv α) → List Cmd
  | [] => []
  | .cmd c :: tr => c :: cmdsOf tr
  | .pnext _ :: tr => cmdsOf tr
  | .perror :: tr => cmdsOf tr
  | .pcomplete :: tr => cmdsOf tr

/-- Whether an event is a terminal notification of the hot producer. -/
def isTermEv {α : Type} : HEv α → Bool
  | .perror => true
  | .pcomplete => true
  | _ => false

/-- Whether an event originates from the wrapped producer (not a command). -/
def isProdEv {α : Type} : HEv α → Bool
  | .cmd _ => false
  | _ => true

/-- Number of states emitted by `scan` that equal `running` while folding
the command list from `s` (each such emission makes `switchMap` subscribe
`source$` once). -/
def runningEmissions (s : LifecycleState) : List Cmd → Nat
  | [] => 0
  | c :: cs =>
      (if scanReducer s c = LifecycleState.running then 1 else 0)
        + runningEmissions (scanReducer s c) cs

/-- Number of strict transitions into `running` (state changes from a
non-`running` state to `running`) while folding the command list from `s`. -/
def transitionsIntoRunning (s : LifecycleState) : List Cmd → Nat
  | [] => 0
  | c :: cs =>
      (if s ≠ LifecycleState.running ∧ scanReducer s c = LifecycleState.running
        then 1 else 0)
        + transitionsIntoRunning (scanReducer s c) cs

/-- One notification of a cold producer's per-subscription script. -/
inductive PEvent (α : Type) where
  | next (a : α)
  | error
  | complete
deriving DecidableEq, Repr

/-- Playing a cold producer's synchronous script on a fresh subscription:
returns the notifications forwarded downstream by `switchMap`, whether the
inner subscription is still open afterwards, and whether the downstream
errored.  Values are forwarded; an error is forwarded and stops everything;
a completion closes the inner subscription silently (`switchMap` completes
the output only when the outer completes, and `control$` never does). -/
def playScript {α : Type} : List (PEvent α) → List (SEvent α) × Bool × Bool
  | [] => ([], true, false)
  | .next a :: rest =>
      let r := playScript rest
      (SEvent.next a :: r.1, r.2.1, r.2.2)
  | .error :: _ => ([SEvent.error], false, true)
  | .complete :: _ => ([], false, false)

/-- Observable state of the pipeline wrapped around a cold synchronous
producer; fields as in `HState`. -/
structure CState (α : Type) where
  state : LifecycleState
  live : Bool
  dead : Bool
  subCnt : Nat
  sink : List (SEvent α)
deriving DecidableEq, Repr

/-- State right after construction (see `initH`). -/
def initC (α : Type) : CState α :=
  { state := scanReducer LifecycleState.stopped Cmd.stop
    live := false
    dead := false
    subCnt := 0
    sink := [] }

/-- One command processed by the pipeline wrapped around the cold producer
`script`: after a downstream error the chain is unsubscribed from
`control$` and `next` is a no-op; otherwise `scan` emits the next state and
`switchMap` disposes the current inner subscription, then subscribes
`source$` (replaying the script synchronously) when the state is `running`,
or `EMPTY` otherwise. -/
def stepC {α : Type} (script : List (PEvent α)) (g : CState α) (c : Cmd) : CState α :=
  if g.dead = true then g
  else
    let s := scanReducer g.state c
    if s = LifecycleState.running then
      let r := playScript script
      { state := s, live := r.2.1, dead := r.2.2, subCnt := g.subCnt + 1,
        sink := g.sink ++ r.1 }
    else { g with state := s, live := false }

/-- Run the cold model from construction over a command sequence. -/
def runC {α : Type} (script : List (PEvent α)) (cmds : List Cmd) : CState α :=
  cmds.foldl (stepC script) (initC α)

/-- The cold producer `of(1, 2, 3)`: on each subscription it synchronously
emits 1, 2, 3 and completes. -/
def of123 : List (PEvent Nat) :=
  [PEvent.next 1, PEvent.next 2, PEvent.next 3, PEvent.complete]

/-- A producer that synchronously raises an error upon subscription
(`throwError`). -/
def errScript : List (PEvent Nat) := [PEvent.error]

/-- Events of the timed model: a caller command, or one elapsed time unit. -/
inductive TEv where
  | cmd (c : Cmd)
  | tick
deriving DecidableEq, Repr

/-- Observable state of the pipeline wrapped around the cold timed producer
`interval(100)`; `age` is the number of time units since the current inner
subscription was opened (each subscription emits the value k when its age
reaches 100·(k+1)). -/
structure TState where
  state : LifecycleState
  live : Bool
  age : Nat
  sink : List Nat
deriving DecidableEq, Repr

/-- State right after construction (see `initH`). -/
def initT : TState :=
  { state := scanReducer LifecycleState.stopped Cmd.stop
    live := false
    age := 0
    sink := [] }

/-- One event of the timed model: a command makes `scan` emit the next
state and `switchMap` switch the inner subscription (a fresh subscription
to `interval(100)` restarts its timer and its values at 0); a tick ages the
open subscription by one unit and delivers value `age/100 - 1` each time
the age reaches a multiple of 100. -/
def stepT (g : TState) : TEv → TState
  | .cmd c =>
      let s := scanReducer g.state c
      if s = LifecycleState.running then { g with state := s, live := true, age := 0 }
      else { g with state := s, live := false, age := 0 }
  | .tick =>
      if g.live = true then
        let a := g.age + 1
        if a % 100 = 0 then { g with age := a, sink := g.sink ++ [a / 100 - 1] }
        else { g with age := a }
      else g

/-- Run the timed model from construction over a sequence of events. -/
def runT (tr : List TEv) : TState :=
  tr.foldl stepT initT

/-- The scenario of C7: `start` at t=0, `pause` at t=150, `resume` at
t=350, observe at t=450, with the producer `interval(100)`. -/
def c7Trace : List TEv :=
  [TEv.cmd Cmd.start] ++ List.replicate 150 TEv.tick
    ++ [TEv.cmd Cmd.pause] ++ List.replicate 200 TEv.tick
    ++ [TEv.cmd Cmd.resume] ++ List.replicate 100 TEv.tick

theorem runH_append {α : Type} (tr : List (HEv α)) (e : HEv α) :
    runH (tr ++ [e]) = stepH (runH tr) e := by
  simp [runH, List.foldl_append]

theorem stepH_downSubs {α : Type} (g : HState α) (e : HEv α) :
    (stepH g e).downSubs = g.downSubs := by
  cases e with
  | cmd c =>
    by_cases hd : g.dead = true
    · simp [stepH, hd]
    · by_cases hr : scanReducer g.state c = LifecycleState.running
      · cases hterm : g.terminal with
        | none => simp [stepH, hd, hr, hterm]
        | some t => cases t <;> simp [stepH, hd, hr, hterm]
      · simp [stepH, hd, hr]
  | pnext a =>
    by_cases hc : g.terminal = none ∧ g.live = true <;> simp [stepH, hc]
  | perror =>
    by_cases ht : g.terminal = none
    · by_cases hl : g.live = true <;> simp [stepH, ht, hl]
    · simp [stepH, ht]
  | pcomplete =>
    by_cases ht : g.terminal = none
    · by_cases hl : g.live = true <;> simp [stepH, ht, hl]
    · simp [stepH, ht]

theorem foldl_stepH_downSubs {α : Type} (tr : List (HEv α)) :
    ∀ g : HState α, (tr.foldl stepH g).downSubs = g.downSubs := by
  induction tr with
  | nil => intro g; rfl
  | cons e tr ih =>
    intro g
    rw [List.foldl_cons, ih, stepH_downSubs]

/-- Invariant of the hot model on traces without producer terminal events:
the producer has not stopped, no downstream error occurred, the inner
subscription to `source$` is open exactly when the last emitted state is
`running`, and the number of `subscribe` calls on `source$` equals the
number of `running` states emitted by `scan`. -/
theorem noTerm_inv {α : Type} (tr : List (HEv α)) :
    ∀ g : HState α, (∀ e ∈ tr, isTermEv e = false) →
      g.terminal = none → g.dead = false →
      (g.live = true ↔ g.state = LifecycleState.running) →
      (tr.foldl stepH g).terminal = none
        ∧ (tr.foldl stepH g).dead = false
        ∧ ((tr.foldl stepH g).live = true
            ↔ (tr.foldl stepH g).state = LifecycleState.running)
        ∧ (tr.foldl stepH g).subCnt
            = g.subCnt + runningEmissions g.state (cmdsOf tr) := by
  induction tr with
  | nil =>
    intro g _ h1 h2 h3
    exact ⟨h1, h2, h3, by simp [runningEmissions, cmdsOf]⟩
  | cons e tr ih =>
    intro g htr hterm hdead hlive
    have he : isTermEv e = false := htr e (by simp)
    have htr' : ∀ x ∈ tr, isTermEv x = false := fun x hx => htr x (by simp [hx])
    cases e with
    | cmd c =>
      rw [List.foldl_cons]
      by_cases hr : scanReducer g.state c = LifecycleState.running
      · have hstep : stepH g (HEv.cmd c)
            = { g with state := scanReducer g.state c, live := true,
                       subCnt := g.subCnt + 1 } := by
          simp [stepH, hdead, hterm, hr]
        rw [hstep]
        have key := ih { g with state := scanReducer g.state c, live := true,
                                subCnt := g.subCnt + 1 }
          htr' hterm hdead (by simp [hr])
        refine ⟨key.1, key.2.1, key.2.2.1, ?_⟩
        rw [key.2.2.2]
        simp only [cmdsOf, runningEmissions, hr, if_pos]
        omega
      · have hstep : stepH g (HEv.cmd c)
            = { g with state := scanReducer g.state c, live := false } := by
          simp [stepH, hdead, hr]
        rw [hstep]
        have key := ih { g with state := scanReducer g.state c, live := false }
          htr' hterm hdead (by simp [hr])
        refine ⟨key.1, key.2.1, key.2.2.1, ?_⟩
        rw [key.2.2.2]
        simp [cmdsOf, runningEmissions, hr]
    | pnext a =>
      rw [List.foldl_cons]
      by_cases hc : g.terminal = none ∧ g.live = true
      · have hstep : stepH g (HEv.pnext a)
            = { g with sink := g.sink ++ [SEvent.next a] } := by
          simp [stepH, hc]
        rw [hstep]
        have key := ih { g with sink := g.sink ++ [SEvent.next a] }
          htr' hterm hdead hlive
        exact ⟨key.1, key.2.1, key.2.2.1, by rw [key.2.2.2]; simp [cmdsOf]⟩
      · have hstep : stepH g (HEv.pnext a) = g := by
          simp only [stepH]
          rw [if_neg hc]
        rw [hstep]
        have key := ih g htr' hterm hdead hlive
        exact ⟨key.1, key.2.1, key.2.2.1, by rw [key.2.2.2]; simp [cmdsOf]⟩
    | perror => simp [isTermEv] at he
    | pcomplete => simp [isTermEv] at he

/-- C2, as stated, is false: the claim says the gate re-subscribes to the
wrapped producer exactly once per transition into `running`, but issuing
`start` twice makes `scan` emit `running` twice, and `switchMap` subscribes
`source$` on each emission: two subscribe calls for a single transition
into `running`. -/
theorem C2_counterexample_resubscribe_count :
    ¬ ((runH [HEv.cmd Cmd.start, HEv.cmd Cmd.start] : HState Nat).subCnt
        = transitionsIntoRunning LifecycleState.stopped
            (cmdsOf ([HEv.cmd Cmd.start, HEv.cmd Cmd.start] : List (HEv Nat)))) := by
  decide

/-- C2 amended: provided the wrapped producer has not terminated, an inner
subscription to it is alive iff the lifecycle state is `running` (so
exactly one while `running`, zero while `paused` or `stopped`), and the
gate subscribes to the wrapped producer exactly once per state emission
equal to `running` — that is, once per processed command whose resulting
state is `running`, including commands that leave `running` unchanged. -/
theorem C2_subscription_aliveness {α : Type} (tr : List (HEv α))
    (h : ∀ e ∈ tr, isTermEv e = false) :
    ((runH tr).live = true ↔ (runH tr).state = LifecycleState.running)
      ∧ (runH tr).subCnt = runningEmissions LifecycleState.stopped (cmdsOf tr) := by
  have hinit : (initH α).state = LifecycleState.stopped := rfl
  have key := noTerm_inv tr (initH α) h rfl rfl (by rw [hinit]; simp [initH])
  refine ⟨key.2.2.1, ?_⟩
  have h2 := key.2.2.2
  rw [hinit] at h2
  simpa [initH, runH] using h2

/-- Witness for C2: after `start` then a producer value, the inner
subscription is alive, the state is `running`, and exactly one subscribe
call was made. -/
theorem C2_subscription_aliveness_witness :
    (∀ e ∈ ([HEv.cmd Cmd.start, HEv.pnext 5] : List (HEv Nat)), isTermEv e = false)
      ∧ (((runH [HEv.cmd Cmd.start, HEv.pnext 5] : HState Nat).live = true
            ↔ (runH [HEv.cmd Cmd.start, HEv.pnext 5] : HState Nat).state
                = LifecycleState.running)
          ∧ (runH [HEv.cmd Cmd.start, HEv.pnext 5] : HState Nat).subCnt
              = runningEmissions LifecycleState.stopped
                  (cmdsOf ([HEv.cmd Cmd.start, HEv.pnext 5] : List (HEv Nat)))) :=
  ⟨by decide, C2_subscription_aliveness _ (by decide)⟩

/-- Reachability invariant of the hot model: an open inner subscription to
`source$` implies the producer has not stopped, no downstream error
occurred, and the lifecycle state is `running`; and the downstream
observer never receives a completion notification (`switchMap` completes
the output only when the outer `control$` completes, which never happens). -/
def HInv {α : Type} (g : HState α) : Prop :=
  (g.live = true →
      g.terminal = none ∧ g.dead = false ∧ g.state = LifecycleState.running)
    ∧ SEvent.complete ∉ g.sink

theorem hInv_init (α : Type) : HInv (initH α) := by
  constructor
  · intro h
    simp [initH] at h
  · simp [initH]

theorem hInv_step {α : Type} (g : HState α) (e : HEv α) (h : HInv g) :
    HInv (stepH g e) := by
  obtain ⟨hl, hs⟩ := h
  cases e with
  | cmd c =>
    by_cases hd : g.dead = true
    · simpa [stepH, hd] using ⟨hl, hs⟩
    · have hd' : g.dead = false := by simpa using hd
      by_cases hr : scanReducer g.state c = LifecycleState.running
      · cases hterm : g.terminal with
        | none =>
          refine ⟨?_, ?_⟩ <;> simp [stepH, hd', hr, hterm, hs]
        | some t =>
          cases t <;> refine ⟨?_, ?_⟩ <;>
            simp [stepH, hd', hr, hterm, hs]
      · refine ⟨?_, ?_⟩ <;> simp [stepH, hd', hr, hs]
  | pnext a =>
    by_cases hc : g.terminal = none ∧ g.live = true
    · have hstep : stepH g (HEv.pnext a)
          = { g with sink := g.sink ++ [SEvent.next a] } := by
        simp [stepH, hc]
      rw [hstep]
      refine ⟨hl, ?_⟩
      simp [hs]
    · have hstep : stepH g (HEv.pnext a) = g := by
        simp only [stepH]
        rw [if_neg hc]
      rw [hstep]
      exact ⟨hl, hs⟩
  | perror =>
    by_cases ht : g.terminal = none
    · by_cases hlv : g.live = true
      · have hstep : stepH g HEv.perror
            = { g with terminal := some Terminal.err, live := false,
                       dead := true, sink := g.sink ++ [SEvent.error] } := by
          simp [stepH, ht, hlv]
        rw [hstep]
        refine ⟨?_, ?_⟩
        · intro h2
          simp at h2
        · simp [hs]
      · have hstep : stepH g HEv.perror
            = { g with terminal := some Terminal.err } := by
          simp [stepH, ht, hlv]
        rw [hstep]
        refine ⟨?_, hs⟩
        intro h2
        exact absurd h2 hlv
    · have hstep : stepH g HEv.perror = g := by
        simp [stepH, ht]
      rw [hstep]
      exact ⟨hl, hs⟩
  | pcomplete =>
    by_cases ht : g.terminal = none
    · by_cases hlv : g.live = true
      · have hstep : stepH g HEv.pcomplete
            = { g with terminal := some Terminal.com, live := false } := by
          simp [stepH, ht, hlv]
        rw [hstep]
        refine ⟨?_, hs⟩
        intro h2
        simp at h2
      · have hstep : stepH g HEv.pcomplete
            = { g with terminal := some Terminal.com } := by
          simp [stepH, ht, hlv]
        rw [hstep]
        refine ⟨?_, hs⟩
        intro h2
        exact absurd h2 hlv
    · have hstep : stepH g HEv.pcomplete = g := by
        simp [stepH, ht]
      rw [hstep]
      exact ⟨hl, hs⟩

theorem hInv_foldl {α : Type} (tr : List (HEv α)) :
    ∀ g : HState α, HInv g → HInv (tr.foldl stepH g) := by
  induction tr with
  | nil => intro g h; exact h
  | cons e tr ih =>
    intro g h
    rw [List.foldl_cons]
    exact ih _ (hInv_step g e h)

theorem hInv_runH {α : Type} (tr : List (HEv α)) : HInv (runH tr) :=
  hInv_foldl tr (initH α) (hInv_init α)

/-- C3, as stated, is false: after `start` the inner subscription is alive
and the state is `running`, yet when the wrapped producer then emits a
completion, the downstream observer receives no completion notification —
`switchMap` absorbs inner completions because the outer `control$` never
completes. -/
theorem C3_counterexample_completion_not_forwarded :
    (runH [HEv.cmd Cmd.start] : HState Nat).live = true
      ∧ (runH [HEv.cmd Cmd.start] : HState Nat).state = LifecycleState.running
      ∧ SEvent.complete
          ∉ (runH [HEv.cmd Cmd.start, HEv.pcomplete] : HState Nat).sink := by
  decide

/-- C3 amended: while the inner subscription to the wrapped producer is
alive (state `running`), every value and every error the producer emits is
forwarded to the downstream observer (an error also terminates the chain);
while the state is not `running`, producer activity delivers nothing
downstream; and the downstream observer never receives a completion
notification, because `switchMap` absorbs inner completions and the outer
`control$` never completes. -/
theorem C3_forwarding {α : Type} :
    (∀ (tr : List (HEv α)) (a : α), (runH tr).live = true →
        (runH (tr ++ [HEv.pnext a])).sink = (runH tr).sink ++ [SEvent.next a])
      ∧ (∀ (tr : List (HEv α)) (e : HEv α),
            (runH tr).state ≠ LifecycleState.running → isProdEv e = true →
            (runH (tr ++ [e])).sink = (runH tr).sink)
      ∧ (∀ tr : List (HEv α), (runH tr).live = true →
            (runH (tr ++ [HEv.perror])).sink = (runH tr).sink ++ [SEvent.error]
              ∧ (runH (tr ++ [HEv.perror])).dead = true)
      ∧ (∀ tr : List (HEv α), SEvent.complete ∉ (runH tr).sink) := by
  refine ⟨?_, ?_, ?_, fun tr => (hInv_runH tr).2⟩
  · intro tr a hlive
    have hterm := ((hInv_runH tr).1 hlive).1
    rw [runH_append]
    simp [stepH, hterm, hlive]
  · intro tr e hstate hprod
    have hlive : (runH tr).live = false := by
      cases hlv : (runH tr).live with
      | false => rfl
      | true => exact absurd ((hInv_runH tr).1 hlv).2.2 hstate
    rw [runH_append]
    cases e with
    | cmd c => simp [isProdEv] at hprod
    | pnext a =>
      have hc : ¬ ((runH tr).terminal = none ∧ (runH tr).live = true) := by
        intro hc
        rw [hlive] at hc
        exact absurd hc.2 (by simp)
      simp only [stepH]
      rw [if_neg hc]
    | perror =>
      by_cases ht : (runH tr).terminal = none
      · simp [stepH, ht, hlive]
      · simp [stepH, ht]
    | pcomplete =>
      by_cases ht : (runH tr).terminal = none
      · simp [stepH, ht, hlive]
      · simp [stepH, ht]
  · intro tr hlive
    have hterm := ((hInv_runH tr).1 hlive).1
    rw [runH_append]
    constructor <;> simp [stepH, hterm, hlive]

/-- Witness for C3: concrete traces exercising value forwarding while
`running`, silence while `stopped`, and error forwarding. -/
theorem C3_forwarding_witness :
    ((runH [HEv.cmd Cmd.start] : HState Nat).live = true
        ∧ (runH ([HEv.cmd Cmd.start] ++ [HEv.pnext 9]) : HState Nat).sink
            = (runH [HEv.cmd Cmd.start] : HState Nat).sink ++ [SEvent.next 9])
      ∧ ((runH ([] : List (HEv Nat))).state ≠ LifecycleState.running
          ∧ isProdEv (HEv.pnext (7 : Nat)) = true
          ∧ (runH (([] : List (HEv Nat)) ++ [HEv.pnext 7])).sink
              = (runH ([] : List (HEv Nat))).sink)
      ∧ ((runH ([HEv.cmd Cmd.start] ++ [HEv.perror]) : HState Nat).sink
            = (runH [HEv.cmd Cmd.start] : HState Nat).sink ++ [SEvent.error]
          ∧ (runH ([HEv.cmd Cmd.start] ++ [HEv.perror]) : HState Nat).dead = true) :=
  ⟨⟨by decide, C3_forwarding.1 [HEv.cmd Cmd.start] 9 (by decide)⟩,
   ⟨by decide, by decide,
     C3_forwarding.2.1 [] (HEv.pnext 7) (by decide) (by decide)⟩,
   C3_forwarding.2.2.1 [HEv.cmd Cmd.start] (by decide)⟩

/-- The keys of the object literal returned by `createPausable`
(src/pausable.ts:36-43): the controller handle exposes exactly these five
zero-argument or one-argument methods; the `Subscription` produced by
`controlled$.subscribe(observer)` on line 34 is discarded, not returned. -/
def pausableHandleMethods : List String :=
  ["start", "stop", "pause", "resume", "command"]

/-- C4, as stated, is false: the handle returned by `createPausable` has no
unsubscribe operation — the returned object exposes only the five command
methods, and the pipeline subscription created at construction is
discarded. -/
theorem C4_counterexample_no_unsubscribe :
    "unsubscribe" ∉ pausableHandleMethods := by
  decide

theorem cmdOnly_not_dead {α : Type} (cmds : List Cmd) :
    ∀ g : HState α, g.dead = false → g.terminal = none →
      ((cmds.map HEv.cmd).foldl stepH g).dead = false
        ∧ ((cmds.map HEv.cmd).foldl stepH g).terminal = none := by
  induction cmds with
  | nil => intro g h1 h2; exact ⟨h1, h2⟩
  | cons c cs ih =>
    intro g h1 h2
    rw [List.map_cons, List.foldl_cons]
    by_cases hr : scanReducer g.state c = LifecycleState.running
    · have hstep : stepH g (HEv.cmd c)
          = { g with state := scanReducer g.state c, live := true,
                     subCnt := g.subCnt + 1 } := by
        simp [stepH, h1, h2, hr]
      rw [hstep]
      exact ih _ h1 h2
    · have hstep : stepH g (HEv.cmd c)
          = { g with state := scanReducer g.state c, live := false } := by
        simp [stepH, h1, hr]
      rw [hstep]
      exact ih _ h1 h2

/-- C4 amended: the returned handle exposes exactly the five command
methods `start`, `stop`, `pause`, `resume`, `command` and no unsubscribe
operation; since the construction-time subscription is discarded, no
sequence of handle commands can perform the terminal teardown — after any
command sequence the downstream pipeline subscription is still the one made
at construction and has not been terminated. -/
theorem C4_handle_has_no_teardown {α : Type} (cmds : List Cmd) :
    "unsubscribe" ∉ pausableHandleMethods
      ∧ pausableHandleMethods = ["start", "stop", "pause", "resume", "command"]
      ∧ (runH (cmds.map HEv.cmd) : HState α).dead = false
      ∧ (runH (cmds.map HEv.cmd) : HState α).downSubs = 1 :=
  ⟨by decide, rfl,
   (cmdOnly_not_dead cmds (initH α) rfl rfl).1,
   foldl_stepH_downSubs _ (initH α)⟩

/-- C5: with the cold producer `of(1, 2, 3)` (emits 1, 2, 3 per
subscription, then completes), issuing `start` twice delivers
`[1, 2, 3, 1, 2, 3]` to the sink: the second `start` makes `scan` emit
`running` again and `switchMap` re-subscribes the producer from scratch. -/
theorem C5_restart_duplicates_emission :
    (runC of123 [Cmd.start, Cmd.start]).sink
        = [SEvent.next 1, SEvent.next 2, SEvent.next 3,
           SEvent.next 1, SEvent.next 2, SEvent.next 3]
      ∧ (runC of123 [Cmd.start, Cmd.start]).subCnt = 2 := by
  decide

theorem foldl_stepC_dead {α : Type} (script : List (PEvent α)) (cmds : List Cmd) :
    ∀ g : CState α, g.dead = true → cmds.foldl (stepC script) g = g := by
  induction cmds with
  | nil => intro g _; rfl
  | cons c cs ih =>
    intro g h
    rw [List.foldl_cons]
    have hstep : stepC script g c = g := by simp [stepC, h]
    rw [hstep]
    exact ih g h

/-- C6: for a wrapped producer that synchronously raises an error upon
subscription, after `start` the sink receives exactly one error
notification and no values, and the pipeline is terminated permanently: no
subsequent command sequence delivers anything further to the sink. -/
theorem C6_error_terminates_permanently (cmds : List Cmd) :
    (runC errScript (Cmd.start :: cmds)).sink = [SEvent.error]
      ∧ (runC errScript (Cmd.start :: cmds)).dead = true := by
  have h1 : stepC errScript (initC Nat) Cmd.start
      = { state := LifecycleState.running, live := false, dead := true,
          subCnt := 1, sink := [SEvent.error] } := by
    decide
  have h2 : runC errScript (Cmd.start :: cmds)
      = cmds.foldl (stepC errScript) (stepC errScript (initC Nat) Cmd.start) := rfl
  rw [h2, h1, foldl_stepC_dead errScript cmds _ rfl]
  exact ⟨rfl, rfl⟩

set_option maxRecDepth 100000 in
/-- C7, as stated, is false: with the cold producer `interval(100)` (each
subscription emits 0, 1, 2, … once every 100 time units after that
subscription), the scenario `start` at t=0, `pause` at t=150, `resume` at
t=350, observe at t=450 does not deliver `[0, 1]` — the `resume` makes
`switchMap` take a fresh subscription, which restarts the producer's timer
and values from scratch. -/
theorem C7_counterexample_resume_restarts_producer :
    ¬ ((runT c7Trace).sink = [0, 1]) := by
  decide

set_option maxRecDepth 100000 in
/-- C7 amended: the scenario delivers exactly `[0, 0]`: value 0 before the
pause, no values while paused, and value 0 again at t=450 because the
fresh subscription taken on `resume` restarts the cold producer's sequence
from the beginning. -/
theorem C7_pause_resume_scenario :
    (runT c7Trace).sink = [0, 0] := by
  decide

theorem stepH_prod_state {α : Type} (g : HState α) (e : HEv α)
    (h : isProdEv e = true) :
    (stepH g e).state = g.state ∧ (stepH g e).subCnt = g.subCnt := by
  cases e with
  | cmd c => simp [isProdEv] at h
  | pnext a =>
    by_cases hc : g.terminal = none ∧ g.live = true
    · simp [stepH, hc]
    · have hstep : stepH g (HEv.pnext a) = g := by
        simp only [stepH]
        rw [if_neg hc]
      rw [hstep]
      exact ⟨rfl, rfl⟩
  | perror =>
    by_cases ht : g.terminal = none
    · by_cases hl : g.live = true <;> simp [stepH, ht, hl]
    · simp [stepH, ht]
  | pcomplete =>
    by_cases ht : g.terminal = none
    · by_cases hl : g.live = true <;> simp [stepH, ht, hl]
    · simp [stepH, ht]

/-- Invariant for traces whose commands are all `pause` or `resume`: the
state never leaves `stopped`, no inner subscription is ever opened, and
nothing reaches the sink. -/
theorem pauseResume_inv {α : Type} (tr : List (HEv α)) :
    ∀ g : HState α, (∀ c ∈ cmdsOf tr, c = Cmd.pause ∨ c = Cmd.resume) →
      g.state = LifecycleState.stopped → g.live = false → g.sink = [] →
      (tr.foldl stepH g).state = LifecycleState.stopped
        ∧ (tr.foldl stepH g).sink = [] := by
  induction tr with
  | nil => intro g _ h1 _ h3; exact ⟨h1, h3⟩
  | cons e tr ih =>
    intro g hc h1 h2 h3
    rw [List.foldl_cons]
    cases e with
    | cmd c =>
      have hcc : c = Cmd.pause ∨ c = Cmd.resume := hc c (List.mem_cons_self c _)
      have htr' : ∀ x ∈ cmdsOf tr, x = Cmd.pause ∨ x = Cmd.resume :=
        fun x hx => hc x (List.mem_cons_of_mem c hx)
      have hr : scanReducer g.state c = LifecycleState.stopped := by
        rw [h1]
        rcases hcc with h | h <;> subst h <;> rfl
      by_cases hd : g.dead = true
      · have hstep : stepH g (HEv.cmd c) = g := by simp [stepH, hd]
        rw [hstep]
        exact ih g htr' h1 h2 h3
      · have hd' : g.dead = false := by simpa using hd
        have hrn : ¬ (scanReducer g.state c = LifecycleState.running) := by
          rw [hr]
          simp
        have hstep : stepH g (HEv.cmd c)
            = { g with state := scanReducer g.state c, live := false } := by
          simp [stepH, hd', hrn]
        rw [hstep]
        exact ih _ htr' hr rfl h3
    | pnext a =>
      have hcond : ¬ (g.terminal = none ∧ g.live = true) := by
        intro hco
        rw [h2] at hco
        exact absurd hco.2 (by simp)
      have hstep : stepH g (HEv.pnext a) = g := by
        simp only [stepH]
        rw [if_neg hcond]
      rw [hstep]
      exact ih g hc h1 h2 h3
    | perror =>
      by_cases ht : g.terminal = none
      · have hstep : stepH g HEv.perror
            = { g with terminal := some Terminal.err } := by
          simp [stepH, ht, h2]
        rw [hstep]
        exact ih _ hc h1 h2 h3
      · have hstep : stepH g HEv.perror = g := by simp [stepH, ht]
        rw [hstep]
        exact ih g hc h1 h2 h3
    | pcomplete =>
      by_cases ht : g.terminal = none
      · have hstep : stepH g HEv.pcomplete
            = { g with terminal := some Terminal.com } := by
          simp [stepH, ht, h2]
        rw [hstep]
        exact ih _ hc h1 h2 h3
      · have hstep : stepH g HEv.pcomplete = g := by simp [stepH, ht]
        rw [hstep]
        exact ih g hc h1 h2 h3

/-- C8: `pause` leaves any non-`running` state unchanged and `resume`
leaves any non-`paused` state unchanged; repeating either command any
number of times in such an invalid state never changes the state; and any
trace whose commands are only `pause` and `resume` (so in particular any
such calls before the first `start`) leaves the state at `stopped` and the
sink empty. -/
theorem C8_invalid_commands_are_noops :
    (∀ s, s ≠ LifecycleState.running → scanReducer s Cmd.pause = s)
      ∧ (∀ s, s ≠ LifecycleState.paused → scanReducer s Cmd.resume = s)
      ∧ (∀ (s : LifecycleState) (n : Nat), s ≠ LifecycleState.running →
            (List.replicate n Cmd.pause).foldl scanReducer s = s)
      ∧ (∀ (s : LifecycleState) (n : Nat), s ≠ LifecycleState.paused →
            (List.replicate n Cmd.resume).foldl scanReducer s = s)
      ∧ (∀ tr : List (HEv Nat),
            (∀ c ∈ cmdsOf tr, c = Cmd.pause ∨ c = Cmd.resume) →
            (runH tr).state = LifecycleState.stopped
              ∧ (runH tr).sink = []) := by
  have hpause : ∀ s, s ≠ LifecycleState.running → scanReducer s Cmd.pause = s := by
    intro s h
    cases s with
    | running => exact absurd rfl h
    | stopped => rfl
    | paused => rfl
  have hresume : ∀ s, s ≠ LifecycleState.paused → scanReducer s Cmd.resume = s := by
    intro s h
    cases s with
    | paused => exact absurd rfl h
    | stopped => rfl
    | running => rfl
  refine ⟨hpause, hresume, ?_, ?_, ?_⟩
  · intro s n h
    induction n with
    | zero => rfl
    | succ n ih =>
      rw [List.replicate_succ, List.foldl_cons, hpause s h]
      exact ih
  · intro s n h
    induction n with
    | zero => rfl
    | succ n ih =>
      rw [List.replicate_succ, List.foldl_cons, hresume s h]
      exact ih
  · intro tr h
    exact pauseResume_inv tr (initH Nat) h rfl rfl rfl

/-- Witness for C8: concrete invalid-command scenarios evaluate as the
theorem states. -/
theorem C8_invalid_commands_witness :
    (LifecycleState.stopped ≠ LifecycleState.running
        ∧ scanReducer LifecycleState.stopped Cmd.pause = LifecycleState.stopped)
      ∧ (LifecycleState.running ≠ LifecycleState.paused
        ∧ scanReducer LifecycleState.running Cmd.resume = LifecycleState.running)
      ∧ (List.replicate 5 Cmd.pause).foldl scanReducer LifecycleState.paused
          = LifecycleState.paused
      ∧ (List.replicate 5 Cmd.resume).foldl scanReducer LifecycleState.running
          = LifecycleState.running
      ∧ ((runH [HEv.cmd Cmd.pause, HEv.cmd Cmd.resume, HEv.pnext 3]
            : HState Nat).state = LifecycleState.stopped
          ∧ (runH [HEv.cmd Cmd.pause, HEv.cmd Cmd.resume, HEv.pnext 3]
              : HState Nat).sink = []) :=
  ⟨⟨by decide, C8_invalid_commands_are_noops.1 _ (by decide)⟩,
   ⟨by decide, C8_invalid_commands_are_noops.2.1 _ (by decide)⟩,
   C8_invalid_commands_are_noops.2.2.1 LifecycleState.paused 5 (by decide),
   C8_invalid_commands_are_noops.2.2.2.1 LifecycleState.running 5 (by decide),
   C8_invalid_commands_are_noops.2.2.2.2
     [HEv.cmd Cmd.pause, HEv.cmd Cmd.resume, HEv.pnext 3] (by decide)⟩

/-- Invariant for traces containing no `start` command: the state never
leaves `stopped` and the wrapped producer is never subscribed. -/
theorem noStart_inv {α : Type} (tr : List (HEv α)) :
    ∀ g : HState α, Cmd.start ∉ cmdsOf tr →
      g.state = LifecycleState.stopped → g.subCnt = 0 →
      (tr.foldl stepH g).state = LifecycleState.stopped
        ∧ (tr.foldl stepH g).subCnt = 0 := by
  induction tr with
  | nil => intro g _ h1 h2; exact ⟨h1, h2⟩
  | cons e tr ih =>
    intro g hns h1 h2
    rw [List.foldl_cons]
    cases e with
    | cmd c =>
      have hcne : c ≠ Cmd.start := by
        intro hco
        exact hns (by simp [cmdsOf, hco])
      have hns' : Cmd.start ∉ cmdsOf tr := by
        intro hco
        exact hns (List.mem_cons_of_mem c hco)
      have hr : scanReducer g.state c = LifecycleState.stopped := by
        rw [h1]
        cases c with
        | start => exact absurd rfl hcne
        | stop => rfl
        | pause => rfl
        | resume => rfl
      by_cases hd : g.dead = true
      · have hstep : stepH g (HEv.cmd c) = g := by simp [stepH, hd]
        rw [hstep]
        exact ih g hns' h1 h2
      · have hd' : g.dead = false := by simpa using hd
        have hrn : ¬ (scanReducer g.state c = LifecycleState.running) := by
          rw [hr]
          simp
        have hstep : stepH g (HEv.cmd c)
            = { g with state := scanReducer g.state c, live := false } := by
          simp [stepH, hd', hrn]
        rw [hstep]
        exact ih _ hns' hr h2
    | pnext a =>
      have hp := stepH_prod_state g (HEv.pnext a) rfl
      have := ih (stepH g (HEv.pnext a)) hns (hp.1.trans h1) (hp.2.trans h2)
      exact this
    | perror =>
      have hp := stepH_prod_state g HEv.perror rfl
      exact ih (stepH g HEv.perror) hns (hp.1.trans h1) (hp.2.trans h2)
    | pcomplete =>
      have hp := stepH_prod_state g HEv.pcomplete rfl
      exact ih (stepH g HEv.pcomplete) hns (hp.1.trans h1) (hp.2.trans h2)

/-- C9: constructing the controller subscribes the composed reducer/gate
pipeline exactly once (and no handle activity changes that count); the
reducer is seeded so that the state established before any caller command
is `stopped` (`startWith('stop')` folded into the `scan` seed `'stopped'`);
and on any trace without a `start` command the wrapped producer is never
subscribed. -/
theorem C9_construction_and_seeding {α : Type} (tr : List (HEv α))
    (h : Cmd.start ∉ cmdsOf tr) :
    (initH α).state = LifecycleState.stopped
      ∧ (runH tr).downSubs = 1
      ∧ (runH tr).subCnt = 0 :=
  ⟨rfl, foldl_stepH_downSubs tr (initH α),
   (noStart_inv tr (initH α) h rfl rfl).2⟩

/-- Witness for C9: a start-free trace with producer activity subscribes
the producer zero times. -/
theorem C9_construction_witness :
    Cmd.start ∉ cmdsOf ([HEv.cmd Cmd.pause, HEv.pnext 2, HEv.cmd Cmd.resume]
        : List (HEv Nat))
      ∧ ((initH Nat).state = LifecycleState.stopped
          ∧ (runH [HEv.cmd Cmd.pause, HEv.pnext 2, HEv.cmd Cmd.resume]
              : HState Nat).downSubs = 1
          ∧ (runH [HEv.cmd Cmd.pause, HEv.pnext 2, HEv.cmd Cmd.resume]
              : HState Nat).subCnt = 0) :=
  ⟨by decide, C9_construction_and_seeding _ (by decide)⟩

/-- C10: any command processed while the state is `running` whose resulting
state is again `running` (for example `resume` or `start` issued while
running) makes the gate take a fresh subscription to the wrapped producer —
`scan` emits the state on every command and `switchMap` switches on every
emission, there is no distinct-until-changed filtering; consequently the
cold producer `of(1, 2, 3)` replays its whole sequence on a `resume`
issued while running, a command the transition table classifies as a
no-op. -/
theorem C10_reswitch_on_every_emission {α : Type} (tr : List (HEv α)) (c : Cmd)
    (hdead : (runH tr).dead = false)
    (hrun : (runH tr).state = LifecycleState.running)
    (hc : scanReducer LifecycleState.running c = LifecycleState.running) :
    ((runH (tr ++ [HEv.cmd c])).subCnt = (runH tr).subCnt + 1
        ∧ (runC of123 [Cmd.start, Cmd.resume]).sink
            = [SEvent.next 1, SEvent.next 2, SEvent.next 3,
               SEvent.next 1, SEvent.next 2, SEvent.next 3]) := by
  constructor
  · rw [runH_append]
    have hr : scanReducer (runH tr).state c = LifecycleState.running := by
      rw [hrun]
      exact hc
    cases hterm : (runH tr).terminal with
    | none => simp [stepH, hdead, hr, hterm]
    | some t => cases t <;> simp [stepH, hdead, hr, hterm]
  · decide

/-- Witness for C10: a `resume` issued while running takes a second
subscription to the producer. -/
theorem C10_reswitch_witness :
    ((runH [HEv.cmd Cmd.start] : HState Nat).dead = false
        ∧ (runH [HEv.cmd Cmd.start] : HState Nat).state = LifecycleState.running
        ∧ scanReducer LifecycleState.running Cmd.resume = LifecycleState.running)
      ∧ (runH ([HEv.cmd Cmd.start] ++ [HEv.cmd Cmd.resume]) : HState Nat).subCnt
          = (runH [HEv.cmd Cmd.start] : HState Nat).subCnt + 1 :=
  ⟨⟨by decide, by decide, by decide⟩,
   (C10_reswitch_on_every_emission [HEv.cmd Cmd.start] Cmd.resume
     (by decide) (by decide) (by decide)).1⟩

end RxAddOns
